import Mathlib

/-!
Verification of the loyaltysystem accrual-reconciliation subsystem.

Shallow embedding of the Go sources:
- internal/service/service.go      (order-number validator, withdrawal service path)
- internal/repository/db/postgresql/db.go  (UpdateOrder, GetUnprocessedOrders)
- internal/requestor/requestor.go  (poll loop and lookup workers)

Monetary values are Go float64 in the source; they are modelled as exact
rationals here.  None of the verified properties depends on floating-point
rounding: all concrete amounts involved are small integers, and the only
arithmetic performed is addition, subtraction and comparison.
Timestamps are modelled as naturals, UUIDs as naturals (0 playing the role
of uuid.Nil).
-/

namespace Loyalty

/-- Monetary amount: Go float64 modelled as an exact rational. -/
abbrev Money := Rat

/-- Row of the users table (uuid PRIMARY KEY, balance, withdrawn, updated_at). -/
structure UserRow where
  uuid : Nat
  balance : Money
  withdrawn : Money
  updatedAt : Nat
deriving DecidableEq, Repr

/-- Row of the orders table (order_num UNIQUE, status, accrual, withdrawn,
user_uuid, created_at), after models.Order. -/
structure OrderRow where
  orderNum : String
  status : String
  accrual : Option Money
  withdrawnAmt : Option Money
  userUUID : Nat
  createdAt : Nat
deriving DecidableEq, Repr

/-- The relational store state: the two tables the core touches. -/
structure DBState where
  orders : List OrderRow
  users : List UserRow
deriving DecidableEq, Repr

/-! ## Order validator — service.go, checkOrderNumber (lines 99-133) -/

/-- Result of strconv.Atoi on a one-character string: only the ASCII digits
parse. -/
def charToDigit (c : Char) : Option Nat :=
  if '0' ≤ c ∧ c ≤ '9' then some (c.toNat - 48) else none

/-- The digit-extraction loop of checkOrderNumber: every character must
parse via strconv.Atoi, otherwise the function returns false. -/
def strToDigits : List Char → Option (List Nat)
  | [] => some []
  | c :: cs =>
    match charToDigit c, strToDigits cs with
    | some d, some ds => some (d :: ds)
    | _, _ => none

/-- One digit contribution of the Luhn loop: doubled (and reduced by 9 when
the double exceeds 9) on every second position. -/
def luhnStep (d : Nat) (isSecond : Bool) : Nat :=
  if isSecond then (if d * 2 > 9 then d * 2 - 9 else d * 2) else d

/-- The summation loop of checkOrderNumber: the source iterates the digit
array from the last index down to 0 with isSecond starting false and
toggling each step; here the reversed digit list is consumed front to
back, which is the same traversal. -/
def luhnSumAux : List Nat → Bool → Nat
  | [], _ => 0
  | d :: rest, isSecond => luhnStep d isSecond + luhnSumAux rest (!isSecond)

/-- checkOrderNumber from service.go: length below 2 is rejected, every
character must be an ASCII digit, and the alternating-doubling checksum of
the digits (scanned right to left) must be divisible by 10.

The Go length check counts bytes while this one counts characters; the
results agree on every input: a string whose byte length and character
count differ contains a multi-byte character, which fails the digit parse
in the source and the digit check here, so both return false. -/
def checkOrderNumber (order : String) : Bool :=
  if order.length < 2 then false
  else
    match strToDigits order.data with
    | none => false
    | some ds => luhnSumAux ds.reverse false % 10 == 0

/-- checkOrderNumber together with its effect trace.  The source reads the
clock (t := time.Now()) after the length guard and prints the elapsed time
to standard output (fmt.Println(time.Since(t))) after the summation loop;
the early returns skip one or both effects.  The pair of counters records
(clock reads, stdout prints) performed by one invocation. -/
def checkOrderNumberEff (order : String) : Bool × Nat × Nat :=
  if order.length < 2 then (false, 0, 0)
  else
    match strToDigits order.data with
    | none => (false, 1, 0)
    | some ds => (luhnSumAux ds.reverse false % 10 == 0, 1, 1)

/-- Reference Luhn checksum, written independently of the source loop:
index the digits from the rightmost (index 0) and double-and-reduce the
digits at odd indices. -/
def luhnChecksum (ds : List Nat) : Nat :=
  (ds.reverse.enum.map
    (fun p => if p.1 % 2 = 1 then (if p.2 * 2 > 9 then p.2 * 2 - 9 else p.2 * 2) else p.2)).sum

/-! ## Ledger store — db.go -/

/-- Status filter of the GetUnprocessedOrders query:
status IN ('NEW', 'PROCESSING'). -/
def pendingStatus (s : String) : Bool := s == "NEW" || s == "PROCESSING"

/-- ORDER BY created_at ASC as a relation on order rows. -/
def createdLe (a b : OrderRow) : Prop := a.createdAt ≤ b.createdAt

instance : DecidableRel createdLe := fun a b => Nat.decLe a.createdAt b.createdAt

instance : IsTotal OrderRow createdLe := ⟨fun a b => Nat.le_total a.createdAt b.createdAt⟩

instance : IsTrans OrderRow createdLe := ⟨fun _ _ _ => Nat.le_trans⟩

/-- The rows produced by the GetUnprocessedOrders query (db.go lines
181-207) before projecting order_num: rows with status NEW or PROCESSING
ordered by created_at ascending, truncated by LIMIT. -/
def unprocessedRows (st : DBState) (limit : Nat) : List OrderRow :=
  (List.insertionSort createdLe (st.orders.filter (fun o => pendingStatus o.status))).take limit

/-- GetUnprocessedOrders: SELECT order_num FROM orders WHERE status IN
('NEW', 'PROCESSING') ORDER BY created_at ASC LIMIT $1. -/
def getUnprocessedOrders (st : DBState) (limit : Nat) : List String :=
  (unprocessedRows st limit).map (fun o => o.orderNum)

/-- UPDATE orders SET status = $1 WHERE order_num = $2; returns the new
table state and the number of affected rows. -/
def execUpdateOrdersStatus (st : DBState) (status orderNum : String) : DBState × Nat :=
  let newOrders := st.orders.map
    (fun o => if o.orderNum == orderNum then { o with status := status } else o)
  ({ st with orders := newOrders }, st.orders.countP (fun o => o.orderNum == orderNum))

/-- UPDATE orders SET accrual = $1, status = $2 WHERE order_num = $3. -/
def execUpdateOrdersAccrualStatus (st : DBState) (accrual : Money) (status orderNum : String) :
    DBState × Nat :=
  let newOrders := st.orders.map
    (fun o => if o.orderNum == orderNum then { o with accrual := some accrual, status := status } else o)
  ({ st with orders := newOrders }, st.orders.countP (fun o => o.orderNum == orderNum))

/-- UPDATE users SET balance = balance + $1, updated_at = $2 WHERE uuid =
(SELECT user_uuid from orders where order_num = $3).  A scalar subquery
over an empty result set yields NULL, which matches no user row. -/
def execUpdateUsersBalance (st : DBState) (accrual : Money) (now : Nat) (orderNum : String) :
    DBState × Nat :=
  match (st.orders.find? (fun o => o.orderNum == orderNum)).map (fun o => o.userUUID) with
  | none => (st, 0)
  | some uid =>
    let newUsers := st.users.map
      (fun u => if u.uuid == uid then { u with balance := u.balance + accrual, updatedAt := now } else u)
    ({ st with users := newUsers }, st.users.countP (fun u => u.uuid == uid))

/-- UpdateOrder from db.go (lines 209-251).  The zero-accrual branch runs a
single status UPDATE; the non-zero branch runs the order UPDATE and then
the user-balance UPDATE as two separate autocommit statements — the source
opens no transaction, so a failure of the second statement leaves the
effect of the first in place.  The returned option is the Go error value
(none on success), carrying the literal message strings of the source. -/
def updateOrder (st : DBState) (orderNum status : String) (accrual : Money) (now : Nat) :
    DBState × Option String :=
  if accrual = 0 then
    let r := execUpdateOrdersStatus st status orderNum
    if r.2 = 0 then (r.1, some "no rows were updated") else (r.1, none)
  else
    let r := execUpdateOrdersAccrualStatus st accrual status orderNum
    if r.2 = 0 then (r.1, some "no rows were updated during order update")
    else
      let r2 := execUpdateUsersBalance r.1 accrual now orderNum
      if r2.2 = 0 then (r2.1, some "no rows were updated during user balance update")
      else (r2.1, none)

/-- Balance of a user as read back from the store. -/
def userBalance (st : DBState) (uid : Nat) : Option Money :=
  (st.users.find? (fun u => u.uuid == uid)).map (fun u => u.balance)

/-- Cumulative withdrawn of a user as read back from the store. -/
def userWithdrawn (st : DBState) (uid : Nat) : Option Money :=
  (st.users.find? (fun u => u.uuid == uid)).map (fun u => u.withdrawn)

/-! ## Lookup worker — requestor.go, executeRequestWorker -/

/-- Typed body of a 200 response of the accrual service
(requestor/dto.go): the accrual field is optional. -/
structure AccrualResponse where
  orderNumber : String
  status : String
  accrual : Option Money
deriving DecidableEq, Repr

/-- Outcome of the HTTP call a worker performs, by status code. -/
inductive LookupResponse where
  | ok (body : AccrualResponse)
  | noContent
  | tooManyRequests (retryAfterHeader : Option String)
  | other (code : Nat)
deriving DecidableEq, Repr

/-- A call made against the store interface of the requestor
(UpdateOrderWithoutAccrual or UpdateOrderWithAccrual). -/
inductive StoreCall where
  | withoutAccrual (orderNum status : String)
  | withAccrual (orderNum status : String) (accrual : Money)
deriving DecidableEq, Repr

/-- The sequence of store update calls one worker issues for a response
(executeRequestWorker, lines 95-137).  updOk tells whether a given store
call returns nil; when UpdateOrderWithoutAccrual fails the worker returns
before reaching UpdateOrderWithAccrual.  On a 200 response with a nil
accrual field the source calls UpdateOrderWithoutAccrual and then falls
through to UpdateOrderWithAccrual with accrual 0; with accrual present it
calls only UpdateOrderWithAccrual.  204, 429 and other statuses issue no
store call. -/
def workerUpdateCalls (resp : LookupResponse) (updOk : StoreCall → Bool) : List StoreCall :=
  match resp with
  | .ok body =>
    match body.accrual with
    | none =>
      let c1 := StoreCall.withoutAccrual body.orderNumber body.status
      if updOk c1 then [c1, StoreCall.withAccrual body.orderNumber body.status 0] else [c1]
    | some a => [StoreCall.withAccrual body.orderNumber body.status a]
  | .noContent => []
  | .tooManyRequests _ => []
  | .other _ => []

/-- strconv.Atoi: optional sign followed by at least one ASCII digit. -/
def atoiDigits : List Char → Option Nat
  | [] => none
  | [c] => charToDigit c
  | c :: cs =>
    match charToDigit c, atoiDigits cs with
    | some d, some n => some (d * 10 ^ cs.length + n)
    | _, _ => none

/-- strconv.Atoi on a full string (sign handling included). -/
def atoi (s : String) : Option Int :=
  match s.data with
  | '-' :: rest => (atoiDigits rest).map (fun n => -(n : Int))
  | '+' :: rest => (atoiDigits rest).map (fun n => (n : Int))
  | l => (atoiDigits l).map (fun n => (n : Int))

/-- Effect of the 429 branch of executeRequestWorker on the shared
retryAfter field: if the Retry-After header is present and non-empty it is
parsed with strconv.Atoi; a parse failure returns from the worker before
cancel() is called.  The result is the new field value and whether the
shared cancellation was raised. -/
def workerRetryAfterEffect (prev : Int) (header : Option String) : Int × Bool :=
  match header with
  | some h =>
    if h = "" then (prev, true)
    else
      match atoi h with
      | some n => (n, true)
      | none => (prev, false)
  | none => (prev, true)

/-! ## Poll loop — requestor.go, StartWorkers (lines 44-76) -/

/-- The only long-lived mutable state of the poller that the loop
consults: the retryAfter field (Go int, in seconds). -/
structure PollerState where
  retryAfter : Int
deriving DecidableEq, Repr

/-- How long the loop sleeps at the end of a cycle. -/
inductive SleepKind where
  | poll
  | cooldown (seconds : Int)
deriving DecidableEq, Repr

/-- The fixed poll interval, in seconds (pollSleepTime = 1 * time.Second). -/
def pollSleepSeconds : Int := 1

/-- One cycle of the StartWorkers loop.  fetched is the batch returned by
GetUnprocessedOrders; observed lists the values workers assigned to the
retryAfter field this cycle, in write order (last write wins; the field
keeps its previous value when the list is empty).  With an empty batch the
loop sleeps the poll interval without consulting retryAfter; with a
non-empty batch it sleeps the recorded cool-down when the field is
positive and the poll interval otherwise.  The field is never reset to
zero anywhere in the source. -/
def runCycle (st : PollerState) (fetched : List String) (observed : List Int) :
    PollerState × SleepKind :=
  if fetched.isEmpty then (st, SleepKind.poll)
  else
    let ra := observed.foldl (fun _ v => v) st.retryAfter
    if 0 < ra then (⟨ra⟩, SleepKind.cooldown ra) else (⟨ra⟩, SleepKind.poll)

/-! ## Withdrawal path — service.go, PutUserWithdrawnOrder (lines 158-177) -/

/-- Modelled from the spec: the postgres implementation of the repository
method PutUserWithdrawnOrder (the DebitForWithdrawal operation of section
4.2) is not among the sources — only its interface declaration and its
callers are.  Per the spec it is one atomic row-locked unit: locate the
user's balance row, fail with InsufficientBalance and perform no writes
when balance < amount, otherwise insert the withdrawal order (created
directly in the terminal PROCESSED state per section 3) and decrement the
balance while incrementing cumulative-withdrawn by the same amount. -/
def putUserWithdrawnOrderDB (st : DBState) (userUUID : Nat) (orderNum : String)
    (amount : Money) (now : Nat) : DBState × Option String :=
  match st.users.find? (fun u => u.uuid == userUUID) with
  | none => (st, some "no rows were updated")
  | some u =>
    if u.balance < amount then (st, some "insufficient balance")
    else
      ({ orders := st.orders ++ [⟨orderNum, "PROCESSED", none, some amount, userUUID, now⟩],
         users := st.users.map (fun v =>
           if v.uuid == userUUID then
             { v with balance := v.balance - amount,
                      withdrawn := v.withdrawn + amount,
                      updatedAt := now }
           else v) },
       none)

/-- PutUserWithdrawnOrder of the service layer (service.go lines 158-177):
reject a non-positive amount, a nil user uuid and an order number failing
the Luhn validator, then delegate to the repository. -/
def putUserWithdrawnOrder (st : DBState) (user : Nat) (orderNum : String)
    (withdrawn : Money) (now : Nat) : DBState × Option String :=
  if withdrawn ≤ 0 then (st, some "withdrawn must be greater than zero")
  else if user == 0 then (st, some "invalid user uuid")
  else if !(checkOrderNumber orderNum) then (st, some "incorrect order number")
  else putUserWithdrawnOrderDB st user orderNum withdrawn now

/-! ## Concrete store states used in the closed evaluations -/

/-- One user (uuid 1, balance 0) owning one NEW order. -/
def stOneOrder : DBState :=
  { orders := [⟨"79927398713", "NEW", none, none, 1, 0⟩],
    users := [⟨1, 0, 0, 0⟩] }

/-- An order whose owning-user reference points at no user row; the users
table is empty, so the balance UPDATE of updateOrder affects zero rows. -/
def stOrphanOrder : DBState :=
  { orders := [⟨"79927398713", "NEW", none, none, 99, 0⟩],
    users := [] }

/-- Two pending orders (the older one second in table order) and one
already-terminal order. -/
def stTwoPending : DBState :=
  { orders := [⟨"22", "NEW", none, none, 1, 5⟩,
               ⟨"11", "PROCESSING", none, none, 1, 2⟩,
               ⟨"33", "PROCESSED", some 5, none, 1, 1⟩],
    users := [] }

/-- One user with balance 100 and nothing withdrawn yet. -/
def stWithdraw : DBState :=
  { orders := [], users := [⟨1, 100, 0, 0⟩] }

end Loyalty

namespace Loyalty

/-! # Theorems -/

/-! ## Helper lemmas about the validator -/

theorem charToDigit_of_isDigit (c : Char) (h : c.isDigit = true) :
    charToDigit c = some (c.toNat - 48) := by
  simp [Char.isDigit, decide_eq_true_eq] at h
  simp [charToDigit, Char.le_def]
  exact ⟨h.1, h.2⟩

theorem charToDigit_of_not_isDigit (c : Char) (h : c.isDigit = false) :
    charToDigit c = none := by
  simp [Char.isDigit, decide_eq_true_eq] at h
  simp [charToDigit, Char.le_def]
  exact h

theorem strToDigits_of_all (l : List Char) (h : ∀ c ∈ l, c.isDigit = true) :
    strToDigits l = some (l.map (fun c => c.toNat - 48)) := by
  induction l with
  | nil => rfl
  | cons c cs ih =>
    have hc := charToDigit_of_isDigit c (h c (by simp))
    have hcs := ih (fun x hx => h x (by simp [hx]))
    simp [strToDigits, hc, hcs]

theorem strToDigits_of_not_all (l : List Char) (h : ¬ ∀ c ∈ l, c.isDigit = true) :
    strToDigits l = none := by
  induction l with
  | nil => exact absurd (by simp) h
  | cons c cs ih =>
    by_cases hc : c.isDigit = true
    · have hcs : ¬ ∀ x ∈ cs, x.isDigit = true := by
        intro hall
        exact h (by intro x hx; rcases List.mem_cons.mp hx with rfl | hx
                    exacts [hc, hall x hx])
      simp [strToDigits, ih hcs, charToDigit_of_isDigit c hc]
    · simp [strToDigits, charToDigit_of_not_isDigit c (Bool.eq_false_iff.mpr hc)]

theorem luhnSumAux_enumFrom (l : List Nat) (n : Nat) :
    luhnSumAux l (decide (n % 2 = 1)) =
      ((l.enumFrom n).map (fun p => luhnStep p.2 (decide (p.1 % 2 = 1)))).sum := by
  induction l generalizing n with
  | nil => rfl
  | cons d rest ih =>
    have hpar : (!decide (n % 2 = 1)) = decide ((n + 1) % 2 = 1) := by
      rcases Nat.mod_two_eq_zero_or_one n with h | h <;>
        simp [h, Nat.add_mod]
    simp only [luhnSumAux, List.enumFrom, List.map, List.sum_cons]
    rw [hpar, ih (n + 1)]

theorem luhnSumAux_eq_checksum (ds : List Nat) :
    luhnSumAux ds.reverse false = luhnChecksum ds := by
  have h := luhnSumAux_enumFrom ds.reverse 0
  norm_num at h
  rw [h, luhnChecksum, List.enum]
  congr 1
  apply List.map_congr_left
  intro p _
  by_cases hp : p.1 % 2 = 1 <;> simp [luhnStep, hp]

/-! ## Helper lemmas about user-row lookup -/

theorem find?_map_update (l : List UserRow) (uid : Nat) (u : UserRow)
    (f : UserRow → UserRow) (hf : ∀ v, (f v).uuid = v.uuid)
    (h : l.find? (fun v => v.uuid == uid) = some u) :
    (l.map (fun v => if v.uuid == uid then f v else v)).find? (fun v => v.uuid == uid) =
      some (f u) := by
  induction l with
  | nil => simp at h
  | cons w l ih =>
    by_cases hw : (w.uuid == uid) = true
    · rw [List.find?_cons_of_pos (p := fun v : UserRow => v.uuid == uid) _ hw] at h
      injection h with h
      subst h
      simp only [List.map_cons, if_pos hw]
      exact List.find?_cons_of_pos (p := fun v : UserRow => v.uuid == uid) _
        (by show ((f w).uuid == uid) = true; rw [hf]; exact hw)
    · rw [List.find?_cons_of_neg (p := fun v : UserRow => v.uuid == uid) _ hw] at h
      simp only [List.map_cons, if_neg hw]
      rw [List.find?_cons_of_neg (p := fun v : UserRow => v.uuid == uid) _ hw]
      exact ih h

theorem find?_eq_of_mem_unique (l : List UserRow) (uid : Nat) (u w : UserRow)
    (hnd : l.Pairwise (fun a b => a.uuid ≠ b.uuid))
    (h : l.find? (fun v => v.uuid == uid) = some u)
    (hw : w ∈ l) (hww : w.uuid = uid) : w = u := by
  induction l with
  | nil => simp at hw
  | cons x l ih =>
    rcases List.pairwise_cons.mp hnd with ⟨hx, hnd2⟩
    by_cases hxu : (x.uuid == uid) = true
    · rw [List.find?_cons_of_pos (p := fun v : UserRow => v.uuid == uid) _ hxu] at h
      injection h with h
      subst h
      rcases List.mem_cons.mp hw with rfl | hw2
      · rfl
      · have heq : x.uuid = w.uuid := by rw [hww]; exact beq_iff_eq.mp hxu
        exact absurd heq (hx w hw2)
    · rw [List.find?_cons_of_neg (p := fun v : UserRow => v.uuid == uid) _ hxu] at h
      rcases List.mem_cons.mp hw with rfl | hw2
      · exact absurd (beq_iff_eq.mpr hww) hxu
      · exact ih hnd2 h hw2

/-- C1: UpdateOrder with a non-zero accrual is NOT idempotent against
duplicate delivery.  On a store holding a NEW order owned by a zero-balance
user, the first credited update succeeds; the second invocation for the
same order identifier also succeeds (its WHERE clause matches on order_num
alone, with no already-terminal guard) and credits the balance a second
time: the balance is 500 after the first call and 1000 after the second,
and the second call returns no error instead of the claimed
no-rows/already-terminal failure. -/
theorem c1_updateOrder_double_credits_on_duplicate :
    (updateOrder stOneOrder "79927398713" "PROCESSED" 500 1).2 = none ∧
    userBalance (updateOrder stOneOrder "79927398713" "PROCESSED" 500 1).1 1 = some 500 ∧
    (updateOrder (updateOrder stOneOrder "79927398713" "PROCESSED" 500 1).1
        "79927398713" "PROCESSED" 500 2).2 = none ∧
    userBalance (updateOrder (updateOrder stOneOrder "79927398713" "PROCESSED" 500 1).1
        "79927398713" "PROCESSED" 500 2).1 1 = some 1000 := by
  norm_num [stOneOrder, updateOrder, execUpdateOrdersAccrualStatus, execUpdateUsersBalance,
    userBalance, List.countP, List.countP.go, List.find?]

/-- C2: UpdateOrder with a non-zero accrual is NOT atomic.  The order
UPDATE and the user-balance UPDATE are two separate autocommit statements
with no enclosing transaction: when the balance UPDATE affects zero rows
the call returns an error, yet the order row keeps the already-applied
status and accrual — a partial effect persists instead of both rows being
left as they were before the call. -/
theorem c2_updateOrder_partial_effect_persists :
    (updateOrder stOrphanOrder "79927398713" "PROCESSED" 500 1).2 =
      some "no rows were updated during user balance update" ∧
    (updateOrder stOrphanOrder "79927398713" "PROCESSED" 500 1).1.orders =
      [⟨"79927398713", "PROCESSED", some 500, none, 99, 0⟩] ∧
    (updateOrder stOrphanOrder "79927398713" "PROCESSED" 500 1).1 ≠ stOrphanOrder := by
  decide

/-- C3: a 200-status verdict with no accrual value does NOT result in
exactly one store update call.  When the accrual field is absent and the
first update succeeds, the worker calls UpdateOrderWithoutAccrual and then
falls through to also call UpdateOrderWithAccrual with accrual 0 for the
same verdict: two update calls, both variants. -/
theorem c3_worker_double_update_on_missing_accrual :
    workerUpdateCalls (LookupResponse.ok ⟨"1", "PROCESSING", none⟩) (fun _ => true) =
      [StoreCall.withoutAccrual "1" "PROCESSING",
       StoreCall.withAccrual "1" "PROCESSING" 0] ∧
    (workerUpdateCalls (LookupResponse.ok ⟨"1", "PROCESSING", none⟩) (fun _ => true)).length = 2 ∧
    workerUpdateCalls (LookupResponse.ok ⟨"1", "PROCESSED", some 500⟩) (fun _ => true) =
      [StoreCall.withAccrual "1" "PROCESSED" 500] := by
  decide

/-- C4: the recorded rate-limit cool-down is never cleared.  A cycle whose
batch observed Retry-After 60 sleeps the 60-second cool-down, but the
retryAfter field keeps the value 60, so the following cycle — with a
non-empty batch and no new RateLimited observation — again sleeps the
60-second cool-down instead of the fixed poll interval. -/
theorem c4_retryAfter_cooldown_never_cleared :
    workerRetryAfterEffect 0 (some "60") = (60, true) ∧
    runCycle ⟨0⟩ ["1"] [60] = (⟨60⟩, SleepKind.cooldown 60) ∧
    runCycle ⟨60⟩ ["1"] [] = (⟨60⟩, SleepKind.cooldown 60) ∧
    (runCycle ⟨60⟩ ["1"] []).2 ≠ SleepKind.poll := by
  decide

/-- C5: checkOrderNumber accepts exactly the strings of length at least 2
whose characters are all decimal digits and whose Luhn checksum — rightmost
digit scanned first, every second digit doubled with 9 subtracted when the
double exceeds 9 — is divisible by 10; the four reference vectors of the
spec evaluate as stated. -/
theorem c5_checkOrderNumber_matches_luhn_reference :
    (∀ s : String, checkOrderNumber s = true ↔
      2 ≤ s.length ∧ (∀ c ∈ s.data, c.isDigit = true) ∧
        luhnChecksum (s.data.map (fun c => c.toNat - 48)) % 10 = 0) ∧
    checkOrderNumber "79927398713" = true ∧
    checkOrderNumber "1234567812345678" = false ∧
    checkOrderNumber "1" = false ∧
    checkOrderNumber "12a" = false := by
  refine ⟨fun s => ?_, by decide, by decide, by decide, by decide⟩
  unfold checkOrderNumber
  by_cases hlen : s.length < 2
  · simp only [hlen, if_true]
    constructor
    · intro h; exact absurd h (by simp)
    · intro h; omega
  · have hlen2 : 2 ≤ s.length := Nat.not_lt.mp hlen
    by_cases hall : ∀ c ∈ s.data, c.isDigit = true
    · rw [if_neg hlen, strToDigits_of_all s.data hall]
      simp only [beq_iff_eq]
      rw [luhnSumAux_eq_checksum]
      exact ⟨fun h => ⟨hlen2, hall, h⟩, fun h => h.2.2⟩
    · rw [if_neg hlen, strToDigits_of_not_all s.data hall]
      simp [hall]

/-- C5 witness: the equivalence applied to the concrete valid vector. -/
theorem c5_checkOrderNumber_matches_luhn_reference_witness :
    2 ≤ "79927398713".length ∧ (∀ c ∈ "79927398713".data, c.isDigit = true) ∧
      luhnChecksum ("79927398713".data.map (fun c => c.toNat - 48)) % 10 = 0 :=
  (c5_checkOrderNumber_matches_luhn_reference.1 "79927398713").mp (by decide)

/-- C6: GetUnprocessedOrders returns the order numbers of the query rows —
at most limit of them, every row a stored order with status NEW or
PROCESSING, ordered by created_at ascending — and an empty pending set
yields the empty list (the source returns a nil error in that case: the
rows loop simply appends nothing). -/
theorem c6_getUnprocessedOrders_spec (st : DBState) (limit : Nat) :
    getUnprocessedOrders st limit = (unprocessedRows st limit).map (fun o => o.orderNum) ∧
    (getUnprocessedOrders st limit).length ≤ limit ∧
    (∀ o ∈ unprocessedRows st limit,
      o ∈ st.orders ∧ (o.status = "NEW" ∨ o.status = "PROCESSING")) ∧
    List.Sorted createdLe (unprocessedRows st limit) ∧
    (st.orders.filter (fun o => pendingStatus o.status) = [] →
      getUnprocessedOrders st limit = []) := by
  refine ⟨rfl, ?_, ?_, ?_, ?_⟩
  · rw [getUnprocessedOrders, List.length_map, unprocessedRows, List.length_take]
    exact min_le_left _ _
  · intro o ho
    have h1 : o ∈ List.insertionSort createdLe (st.orders.filter (fun r => pendingStatus r.status)) :=
      List.mem_of_mem_take ho
    have h2 := (List.mem_insertionSort createdLe).mp h1
    have h3 := List.mem_filter.mp h2
    refine ⟨h3.1, ?_⟩
    have h4 := h3.2
    simp [pendingStatus] at h4
    exact h4
  · exact List.Pairwise.sublist (List.take_sublist _ _) (List.sorted_insertionSort createdLe _)
  · intro h
    simp [getUnprocessedOrders, unprocessedRows, h]

/-- C6 witness: the specification applied to a concrete store with two
pending rows and to a store with no pending rows. -/
theorem c6_getUnprocessedOrders_spec_witness :
    ((getUnprocessedOrders stTwoPending 2).length ≤ 2 ∧
      ((⟨"11", "PROCESSING", none, none, 1, 2⟩ : OrderRow) ∈ stTwoPending.orders ∧
        ((⟨"11", "PROCESSING", none, none, 1, 2⟩ : OrderRow).status = "NEW" ∨
          (⟨"11", "PROCESSING", none, none, 1, 2⟩ : OrderRow).status = "PROCESSING"))) ∧
    getUnprocessedOrders ⟨[], []⟩ 3 = [] :=
  ⟨⟨(c6_getUnprocessedOrders_spec stTwoPending 2).2.1,
    (c6_getUnprocessedOrders_spec stTwoPending 2).2.2.1
      ⟨"11", "PROCESSING", none, none, 1, 2⟩ (by decide)⟩,
   (c6_getUnprocessedOrders_spec ⟨[], []⟩ 3).2.2.2.2 (by decide)⟩

/-- C7: a 204 NotFound response makes the worker issue no store update
call at all, so the store is untouched for that order in this cycle; an
order whose status is still NEW or PROCESSING is returned by
GetUnprocessedOrders whenever the pending set fits the fetch limit. -/
theorem c7_notFound_leaves_order_pending
    (updOk : StoreCall → Bool) (st : DBState) (o : OrderRow) (limit : Nat) :
    workerUpdateCalls LookupResponse.noContent updOk = [] ∧
    (o ∈ st.orders → pendingStatus o.status = true →
      (st.orders.filter (fun r => pendingStatus r.status)).length ≤ limit →
      o.orderNum ∈ getUnprocessedOrders st limit) := by
  refine ⟨rfl, fun hmem hpend hlen => ?_⟩
  have hf : o ∈ st.orders.filter (fun r => pendingStatus r.status) :=
    List.mem_filter.mpr ⟨hmem, hpend⟩
  have hs : o ∈ List.insertionSort createdLe (st.orders.filter (fun r => pendingStatus r.status)) :=
    (List.mem_insertionSort createdLe).mpr hf
  have hlen2 : (List.insertionSort createdLe
      (st.orders.filter (fun r => pendingStatus r.status))).length ≤ limit := by
    rwa [List.length_insertionSort]
  have heq : unprocessedRows st limit =
      List.insertionSort createdLe (st.orders.filter (fun r => pendingStatus r.status)) := by
    rw [unprocessedRows]; exact List.take_of_length_le hlen2
  rw [getUnprocessedOrders, heq]
  exact List.mem_map.mpr ⟨o, hs, rfl⟩

/-- C7 witness: no store call on 204, and the still-pending order 11 is
re-offered by the next fetch of the concrete store. -/
theorem c7_notFound_leaves_order_pending_witness :
    workerUpdateCalls LookupResponse.noContent (fun _ => true) = [] ∧
    "11" ∈ getUnprocessedOrders stTwoPending 3 :=
  ⟨(c7_notFound_leaves_order_pending (fun _ => true) stTwoPending
      ⟨"11", "PROCESSING", none, none, 1, 2⟩ 3).1,
   (c7_notFound_leaves_order_pending (fun _ => true) stTwoPending
      ⟨"11", "PROCESSING", none, none, 1, 2⟩ 3).2 (by decide) (by decide) (by decide)⟩

/-- C8: on a valid withdrawal request (positive amount, non-nil user, Luhn-
valid order number), the call fails with the insufficient-balance condition
and leaves the store untouched when the user's pre-debit balance is below
the amount; otherwise it returns no error, appends the withdrawal order
and atomically moves the amount from balance to cumulative-withdrawn; and
with unique user uuids a store whose balances are all non-negative keeps
all balances non-negative through any call. -/
theorem c8_withdrawal_balance_guard
    (st : DBState) (user : Nat) (num : String) (amount : Money) (now : Nat) :
    (∀ u, st.users.find? (fun v => v.uuid == user) = some u →
      u.balance < amount → 0 < amount → user ≠ 0 → checkOrderNumber num = true →
      putUserWithdrawnOrder st user num amount now = (st, some "insufficient balance")) ∧
    (∀ u, st.users.find? (fun v => v.uuid == user) = some u →
      amount ≤ u.balance → 0 < amount → user ≠ 0 → checkOrderNumber num = true →
      (putUserWithdrawnOrder st user num amount now).2 = none ∧
      (putUserWithdrawnOrder st user num amount now).1.orders =
        st.orders ++ [⟨num, "PROCESSED", none, some amount, user, now⟩] ∧
      userBalance (putUserWithdrawnOrder st user num amount now).1 user =
        some (u.balance - amount) ∧
      userWithdrawn (putUserWithdrawnOrder st user num amount now).1 user =
        some (u.withdrawn + amount)) ∧
    (st.users.Pairwise (fun a b => a.uuid ≠ b.uuid) →
      (∀ v ∈ st.users, 0 ≤ v.balance) →
      ∀ v ∈ (putUserWithdrawnOrder st user num amount now).1.users, 0 ≤ v.balance) := by
  refine ⟨?_, ?_, ?_⟩
  · intro u hfind hlt hpos huser hnum
    unfold putUserWithdrawnOrder putUserWithdrawnOrderDB
    rw [if_neg (not_le.mpr hpos), if_neg (by simp [huser]), if_neg (by simp [hnum]), hfind]
    simp [hlt]
  · intro u hfind hle hpos huser hnum
    unfold putUserWithdrawnOrder putUserWithdrawnOrderDB
    rw [if_neg (not_le.mpr hpos), if_neg (by simp [huser]), if_neg (by simp [hnum])]
    simp only [hfind]
    rw [if_neg (not_lt.mpr hle)]
    refine ⟨rfl, rfl, ?_, ?_⟩
    · unfold userBalance
      rw [find?_map_update st.users user u
        (fun v => { v with balance := v.balance - amount,
                           withdrawn := v.withdrawn + amount, updatedAt := now })
        (fun v => rfl) hfind]
      rfl
    · unfold userWithdrawn
      rw [find?_map_update st.users user u
        (fun v => { v with balance := v.balance - amount,
                           withdrawn := v.withdrawn + amount, updatedAt := now })
        (fun v => rfl) hfind]
      rfl
  · intro hnd hall v hv
    unfold putUserWithdrawnOrder putUserWithdrawnOrderDB at hv
    by_cases h1 : amount ≤ 0
    · rw [if_pos h1] at hv; exact hall v hv
    · rw [if_neg h1] at hv
      by_cases h2 : (user == 0) = true
      · rw [if_pos h2] at hv; exact hall v hv
      · rw [if_neg h2] at hv
        by_cases h3 : (!checkOrderNumber num) = true
        · rw [if_pos h3] at hv; exact hall v hv
        · rw [if_neg h3] at hv
          cases hfind : st.users.find? (fun v => v.uuid == user) with
          | none => rw [hfind] at hv; exact hall v hv
          | some u =>
            simp only [hfind] at hv
            by_cases hbal : u.balance < amount
            · rw [if_pos hbal] at hv; exact hall v hv
            · rw [if_neg hbal] at hv
              rcases List.mem_map.mp hv with ⟨w, hwmem, hweq⟩
              by_cases hwu : (w.uuid == user) = true
              · have hwueq : w = u :=
                  find?_eq_of_mem_unique st.users user u w hnd hfind hwmem (beq_iff_eq.mp hwu)
                subst hwueq
                rw [if_pos hwu] at hweq
                subst hweq
                simp only
                have hle : amount ≤ w.balance := not_lt.mp hbal
                simp [sub_nonneg.mpr hle]
              · rw [if_neg hwu] at hweq
                subst hweq
                exact hall w hwmem

/-- C8 witness: the guard applied to a user whose balance is 100 — a
withdrawal of 30 succeeds and moves the amount, a withdrawal of 130 fails
with the insufficient-balance condition and leaves the store unchanged. -/
theorem c8_withdrawal_balance_guard_witness :
    ((putUserWithdrawnOrder stWithdraw 1 "79927398713" 30 5).2 = none ∧
      userBalance (putUserWithdrawnOrder stWithdraw 1 "79927398713" 30 5).1 1 =
        some (100 - 30)) ∧
    putUserWithdrawnOrder stWithdraw 1 "79927398713" 130 5 =
      (stWithdraw, some "insufficient balance") :=
  ⟨⟨((c8_withdrawal_balance_guard stWithdraw 1 "79927398713" 30 5).2.1
      ⟨1, 100, 0, 0⟩ (by decide) (by decide) (by decide) (by decide) (by decide)).1,
    ((c8_withdrawal_balance_guard stWithdraw 1 "79927398713" 30 5).2.1
      ⟨1, 100, 0, 0⟩ (by decide) (by decide) (by decide) (by decide) (by decide)).2.2.1⟩,
   (c8_withdrawal_balance_guard stWithdraw 1 "79927398713" 130 5).1
      ⟨1, 100, 0, 0⟩ (by decide) (by decide) (by decide) (by decide) (by decide)⟩

/-- C9 counterexample: evaluating the validator on the concrete input
79927398713 performs an observable effect — the source prints its timing
measurement to standard output (and reads the clock), so the function is
not free of I/O as claimed. -/
theorem c9_validator_performs_output_effect :
    (checkOrderNumberEff "79927398713").2.2 = 1 ∧
    ¬ (checkOrderNumberEff "79927398713").2 = (0, 0) := by decide

/-- C9 amended: the validator's boolean result is deterministic and
depends only on the input string — the effectful evaluation returns
exactly checkOrderNumber of the input — but evaluation is not effect-free:
it reads the clock whenever the length guard passes and prints one timing
line to stdout whenever all characters parse as digits. -/
theorem c9_validator_result_deterministic (s : String) :
    (checkOrderNumberEff s).1 = checkOrderNumber s ∧
    (checkOrderNumberEff s).2 =
      (if s.length < 2 then (0, 0)
       else if (strToDigits s.data).isSome then (1, 1) else (1, 0)) := by
  unfold checkOrderNumberEff checkOrderNumber
  by_cases hlen : s.length < 2
  · simp [hlen]
  · cases hd : strToDigits s.data <;> simp [hlen, hd]

/-- C10: UpdateOrder invoked with accrual 0 updates only the status column
of the rows matching the order number: every other column and the whole
users table (hence every balance) are unchanged; and a 200 verdict whose
accrual field is absent reaches UpdateOrderWithAccrual with accrual
exactly 0. -/
theorem c10_zero_accrual_updates_only_status (st : DBState) (n s : String) (now : Nat) :
    (updateOrder st n s 0 now).1.users = st.users ∧
    (updateOrder st n s 0 now).1.orders =
      st.orders.map (fun o => if o.orderNum == n then { o with status := s } else o) ∧
    (updateOrder st n s 0 now).1.orders.map (fun o => o.accrual) =
      st.orders.map (fun o => o.accrual) ∧
    (∀ num stat : String, workerUpdateCalls (LookupResponse.ok ⟨num, stat, none⟩) (fun _ => true) =
      [StoreCall.withoutAccrual num stat, StoreCall.withAccrual num stat 0]) := by
  have h : (updateOrder st n s 0 now).1 = (execUpdateOrdersStatus st s n).1 := by
    unfold updateOrder
    rw [if_pos rfl]
    by_cases h2 : (execUpdateOrdersStatus st s n).2 = 0 <;> simp [h2]
  refine ⟨?_, ?_, ?_, fun num stat => rfl⟩
  · rw [h]; rfl
  · rw [h]; rfl
  · rw [h]
    show (st.orders.map _).map _ = _
    rw [List.map_map]
    apply List.map_congr_left
    intro o _
    by_cases ho : (o.orderNum == n) = true <;> simp [ho] <;> split <;> rfl

end Loyalty
